import Mathlib

/-!
# A verification model of the health-assistant chat app (src/app.js)

The source is a single-page browser app: module-level mutable state
(`currentChatType`, `currentChatId`, `currentChat`, `profile`), two
localStorage records (the profile and the chat history), and event handlers
wired to the three screens (initial/option screen, profile form, chat
screen).  This file embeds that program shallowly:

* the module-level globals and the two persisted records become the fields
  of `AppState`;
* every handler becomes a pure function `AppState → inputs → AppState`,
  translated line by line from the source (the inputs are the values the
  handler reads from the outside world: the text box content, `Date.now()`,
  `new Date().toISOString()`, `new Date().toLocaleString()`);
* the `setTimeout` callback of `generateBotResponse` becomes a queued
  `PendingReply`; timers have the constant delay 1000 ms, so they fire in
  FIFO order, modelled by the event `Ev.timerFire` popping the queue head;
* the in-memory `profile` global and the persisted profile record are
  identified: every write to the global in the source is immediately
  followed by `localStorage.setItem`, so the two never differ;
* `localStorage` content for the history is kept parsed (`List Chat`):
  every access in the source is a fresh `JSON.parse`/`JSON.stringify`
  round-trip, so value semantics is exact.  The separate `Stored` type
  below models raw storage including malformed JSON for the two load
  functions, whose error behaviour is under scrutiny.

Events are the user interactions the DOM can actually deliver: each handler
is attached to an element of one screen, so `step` guards each event by the
screen that shows its element (`sendMessage` can only fire from the chat
screen, `loadChat`, `handleOptionSelect` and `deleteAllHistory` from the
initial screen, the profile form from the profile screen); the timer fires
at any time.
-/

namespace HealthApp

inductive Sender where
  | user
  | bot
deriving DecidableEq

structure Message where
  sender : Sender
  content : String
  timestamp : String
deriving DecidableEq

structure Chat where
  id : String
  type : String
  title : String
  createdAt : String
  messages : List Message
deriving DecidableEq

structure Profile where
  name : String
  age : String
  sex : String
  description : String
  updatedAt : String
deriving DecidableEq

/-- One scheduled `setTimeout` callback of `generateBotResponse`
(src/app.js 247-272): the values its closure captured. -/
structure PendingReply where
  botResponse : String
  updateProfileDescription : Bool
  userMessage : String
deriving DecidableEq

inductive Screen where
  | initial
  | profileEntry
  | chat
deriving DecidableEq

/-- The app's module-level state plus the persisted records and the timer
queue.  `chatHistory` is the parsed content of
`localStorage['healthAssistantChatHistory']` (empty list when the key is
absent); `profile` doubles as `localStorage['healthAssistantProfile']`
(write-through, see the header). -/
structure AppState where
  currentChatType : String
  currentChatId : String
  currentChat : Option Chat
  profile : Option Profile
  chatTitle : String
  chatHistory : List Chat
  pending : List PendingReply
  screen : Screen
deriving DecidableEq

/-! ## Raw storage and the two load functions (src/app.js 139-144, 360-363)

`JSON.parse` is the platform's: on a string that is not valid JSON it throws
a `SyntaxError`.  `Stored α` views a raw localStorage value through that
lens: the key is absent (`getItem` returned null, or the stored string is
empty and hence falsy), or the stored string parses to a value, or it is a
non-empty string `JSON.parse` rejects (for instance `"{"`). -/

inductive Stored (α : Type) where
  | absent
  | parsed (v : α)
  | malformed

inductive JsException where
  | syntaxError
deriving DecidableEq

/-- loadProfile (src/app.js 139-144): `JSON.parse(savedProfile)` is not
wrapped in try/catch, so a malformed stored string makes the function throw;
`Except.error` models the escaping exception.  The result is the value of
the `profile` global after the call (`none` when the guard skipped the
parse). -/
def loadProfile : Stored Profile → Except JsException (Option Profile)
  | Stored.absent => Except.ok none
  | Stored.parsed p => Except.ok (some p)
  | Stored.malformed => Except.error JsException.syntaxError

/-- getChatHistory (src/app.js 360-363): `savedHistory ? JSON.parse(savedHistory) : []`
with no try/catch — absent storage yields `[]`, malformed storage throws. -/
def getChatHistory : Stored (List Chat) → Except JsException (List Chat)
  | Stored.absent => Except.ok []
  | Stored.parsed h => Except.ok h
  | Stored.malformed => Except.error JsException.syntaxError

/-! ## The handlers (translated from src/app.js) -/

/-- The whitespace characters `String.prototype.trim` strips (WhiteSpace and
LineTerminator code points; the common ones). -/
def isJsWhitespace (c : Char) : Bool :=
  c == ' ' || c == '\t' || c == '\n' || c == '\r' || c == '\x0b' || c == '\x0c' ||
  c == '\u00A0' || c == '\u2028' || c == '\u2029' || c == '\uFEFF'

/-- `messageInput.value.trim()` (src/app.js 189). -/
def jsTrim (s : String) : String :=
  String.mk (((s.data.dropWhile isJsWhitespace).reverse.dropWhile isJsWhitespace).reverse)

/-- The `switch` of handleOptionSelect (src/app.js 83-93): it overwrites
`chatTitle.textContent` for the three known options and leaves it alone
otherwise. -/
def chatTitleFor (option current : String) : String :=
  if option = "medical" then "Medical Advice"
  else if option = "checkup" then "Health Checkup"
  else if option = "learning" then "Learning"
  else current

/-- The `switch` of startNewChat (src/app.js 151-162), with
`profile?.name || 'there'` (empty name is falsy). -/
def initialBotMessageFor (currentChatType : String) (profile : Option Profile) : String :=
  let name :=
    match profile with
    | some p => if p.name = "" then "there" else p.name
    | none => "there"
  if currentChatType = "medical" then
    "Hello " ++ name ++ ", I\x27m here to provide general medical advice. Please describe your symptoms or concerns."
  else if currentChatType = "checkup" then
    "Hello " ++ name ++ ", let\x27s do a health checkup. I\x27ll ask you some questions about your health."
  else if currentChatType = "learning" then
    "Hello! What would you like to learn about today?"
  else ""

/-- startNewChat (src/app.js 147-178).  `now` is the value of
`Date.now().toString()` read at the call (a non-empty decimal string in the
real program), `nowIso` the value of `new Date().toISOString()`. -/
def startNewChat (s : AppState) (now nowIso : String) : AppState :=
  let initialBotMessage := initialBotMessageFor s.currentChatType s.profile
  { s with
    currentChatId := now,
    currentChat := some
      { id := now,
        type := s.currentChatType,
        title := s.chatTitle,
        createdAt := nowIso,
        messages := [{ sender := Sender.bot, content := initialBotMessage, timestamp := nowIso }] },
    screen := Screen.chat }

/-- handleOptionSelect (src/app.js 79-101): records the chosen option, sets
the title, and either redirects to the profile form (medical/checkup with no
profile) or starts the chat. -/
def handleOptionSelect (s : AppState) (option now nowIso : String) : AppState :=
  let s := { s with currentChatType := option, chatTitle := chatTitleFor option s.chatTitle }
  if (option = "medical" ∨ option = "checkup") ∧ s.profile = none then
    { s with screen := Screen.profileEntry }
  else
    startNewChat s now nowIso

/-- handleProfileSubmit (src/app.js 121-136): builds the profile from the
form fields, persists it, and starts the chat. -/
def handleProfileSubmit (s : AppState) (name age sex description now nowIso : String) :
    AppState :=
  let p : Profile := { name, age, sex, description, updatedAt := nowIso }
  startNewChat { s with profile := some p } now nowIso

/-- The update path shared by sendMessage (src/app.js 210-215) and the reply
callback (261-266): `chatHistory.find(chat => chat.id === id)` followed by
`existingChat.messages = messages` mutates the first entry with that id and
leaves the rest alone (no match: nothing changes). -/
def updateMessagesOfFirst (history : List Chat) (id : String) (messages : List Message) :
    List Chat :=
  match history with
  | [] => []
  | chatEntry :: rest =>
    if chatEntry.id = id then { chatEntry with messages := messages } :: rest
    else chatEntry :: updateMessagesOfFirst rest id messages

/-- The response table of generateBotResponse (src/app.js 226-244): the
`switch` on `currentChatType` choosing the canned reply and the
profile-update flag.  `userMessage` is received (the callback later hands it
to updateProfileWithChatInfo) but the table never reads it. -/
def generateBotResponsePolicy (currentChatType userMessage : String) : String × Bool :=
  if currentChatType = "medical" then
    ("I understand your concern. While I can\x27t diagnose, I recommend monitoring your symptoms. If they persist or worsen, please consult a healthcare professional.", true)
  else if currentChatType = "checkup" then
    ("Thanks for that information. Based on what you\x27ve shared, I suggest keeping track of these symptoms and discussing them with your doctor during your next visit.", true)
  else if currentChatType = "learning" then
    ("That\x27s an interesting topic! Here\x27s some general information about it: [Sample educational content would go here].", false)
  else
    ("I\x27m here to help. Can you tell me more about what you need?", false)

/-- sendMessage (src/app.js 188-223).  `messageInputValue` is the text box
content, `nowIso` the timestamp of the user message.  An empty trimmed text
returns before any mutation; otherwise the user message is appended to the
current chat, the history is upserted (push when no entry carries
`currentChatId`, in-place message replacement otherwise), and the bot reply
is scheduled (the `setTimeout` of generateBotResponse).  `currentChat` is
non-null whenever the chat screen (the only place this handler can fire) is
shown; the `none` branch is dead code kept for totality. -/
def sendMessage (s : AppState) (messageInputValue nowIso : String) : AppState :=
  let messageText := jsTrim messageInputValue
  if messageText = "" then s
  else
    match s.currentChat with
    | none => s
    | some currentChat =>
      let userMessage : Message :=
        { sender := Sender.user, content := messageText, timestamp := nowIso }
      let currentChat := { currentChat with messages := currentChat.messages ++ [userMessage] }
      let chatHistory :=
        if ¬ s.chatHistory.any (fun chat => chat.id == s.currentChatId) then
          s.chatHistory ++ [currentChat]
        else
          updateMessagesOfFirst s.chatHistory s.currentChatId currentChat.messages
      let reply := generateBotResponsePolicy s.currentChatType messageText
      { s with
        currentChat := some currentChat,
        chatHistory := chatHistory,
        pending := s.pending ++
          [{ botResponse := reply.1, updateProfileDescription := reply.2,
             userMessage := messageText }] }

/-- updateProfileWithChatInfo (src/app.js 276-284): no-op without a profile;
otherwise appends `separator + localeTimestamp + ": " + userMessage` to the
description (`profile.description ? "\n\n---\n\n" : ""` — the separator is
omitted exactly when the description is the empty string), stamps
`updatedAt`, persists. -/
def updateProfileWithChatInfo (profile : Option Profile) (userMessage nowLocale nowIso : String) :
    Option Profile :=
  match profile with
  | none => profile
  | some p =>
    let separator := if p.description = "" then "" else "\n\n---\n\n"
    some { p with
      description := p.description ++ separator ++ nowLocale ++ ": " ++ userMessage,
      updatedAt := nowIso }

/-- The body of the `setTimeout` callback of generateBotResponse
(src/app.js 247-272), with `reply` the closure's captured values: appends
the bot message to the *current* values of the `currentChat`/`currentChatId`
globals (they may have moved on since scheduling), re-syncs the history
entry carrying `currentChatId` if one exists, and updates the profile when
the flag is set (`updateProfileDescription && profile`, and
updateProfileWithChatInfo guards the null profile again).  A reply is only
pending after a send, which requires a current chat, and `currentChat` is
never reset to null; the `none` branch is dead code kept for totality. -/
def deliverBotReply (s : AppState) (reply : PendingReply) (nowIso nowLocale : String) :
    AppState :=
  let botMessage : Message :=
    { sender := Sender.bot, content := reply.botResponse, timestamp := nowIso }
  match s.currentChat with
  | none => s
  | some currentChat =>
    let currentChat := { currentChat with messages := currentChat.messages ++ [botMessage] }
    let chatHistory := updateMessagesOfFirst s.chatHistory s.currentChatId currentChat.messages
    let profile :=
      if reply.updateProfileDescription then
        updateProfileWithChatInfo s.profile reply.userMessage nowLocale nowIso
      else s.profile
    { s with currentChat := some currentChat, chatHistory := chatHistory, profile := profile }

/-- showInitialScreen (src/app.js 111-118): clears `currentChatType` and
`currentChatId` (but not `currentChat`). -/
def showInitialScreen (s : AppState) : AppState :=
  { s with currentChatType := "", currentChatId := "", screen := Screen.initial }

/-- handleBackFromChat (src/app.js 59-69): `currentChat?.messages?.length > 1`
keeps the history as is; otherwise every entry whose id equals
`currentChatId` is filtered out before leaving the chat. -/
def handleBackFromChat (s : AppState) : AppState :=
  let keep : Bool :=
    match s.currentChat with
    | some c => decide (1 < c.messages.length)
    | none => false
  if keep then showInitialScreen s
  else
    showInitialScreen
      { s with chatHistory := s.chatHistory.filter (fun chat => chat.id != s.currentChatId) }

/-- deleteAllHistory (src/app.js 371-376), once the user confirms the
dialog: removes the persisted record, so loadAll thereafter yields the
empty sequence.  Cancelling the dialog produces no event at all. -/
def deleteAllHistory (s : AppState) : AppState :=
  { s with chatHistory := [] }

/-- loadChat (src/app.js 344-357): finds the entry and makes it the working
session (same id, so later sends upsert in place); unknown id: no-op. -/
def loadChat (s : AppState) (chatId : String) : AppState :=
  match s.chatHistory.find? (fun chat => chat.id == chatId) with
  | none => s
  | some chat =>
    { s with
      currentChatId := chatId,
      currentChatType := chat.type,
      currentChat := some chat,
      chatTitle := chat.title,
      screen := Screen.chat }

/-! ## Events and traces -/

/-- The externally triggered events, each carrying the values the handler
reads from the environment at that moment (text box content, clock
readings). -/
inductive Ev where
  | selectOption (option now nowIso : String)
  | profileSubmit (name age sex description now nowIso : String)
  | submit (messageInputValue nowIso : String)
  | timerFire (nowIso nowLocale : String)
  | back
  | load (chatId : String)
  | deleteHistory
deriving DecidableEq

/-- One event.  Each click/keypress handler is attached to an element of one
screen, so it can only fire while that screen is shown; the timer callback
fires whenever its delay elapses, popping the FIFO queue (all delays are the
constant 1000 ms, so replies fire in scheduling order). -/
def step (s : AppState) : Ev → AppState
  | Ev.selectOption option now nowIso =>
    if s.screen = Screen.initial then handleOptionSelect s option now nowIso else s
  | Ev.profileSubmit name age sex description now nowIso =>
    if s.screen = Screen.profileEntry then
      handleProfileSubmit s name age sex description now nowIso
    else s
  | Ev.submit messageInputValue nowIso =>
    if s.screen = Screen.chat then sendMessage s messageInputValue nowIso else s
  | Ev.timerFire nowIso nowLocale =>
    match s.pending with
    | [] => s
    | reply :: rest => deliverBotReply { s with pending := rest } reply nowIso nowLocale
  | Ev.back => if s.screen = Screen.chat then handleBackFromChat s else s
  | Ev.load chatId => if s.screen = Screen.initial then loadChat s chatId else s
  | Ev.deleteHistory => if s.screen = Screen.initial then deleteAllHistory s else s

def run (s : AppState) (evs : List Ev) : AppState := evs.foldl step s

/-- The state after init() with empty storage (src/app.js 17-22, 25-56). -/
def initState : AppState :=
  { currentChatType := ""
    currentChatId := ""
    currentChat := none
    profile := none
    chatTitle := ""
    chatHistory := []
    pending := []
    screen := Screen.initial }

/-! ## Observations -/

def historyIds (s : AppState) : List String := s.chatHistory.map Chat.id

def senders (c : Chat) : List Sender := c.messages.map Message.sender

def headSender (c : Chat) : Option Sender := c.messages.head?.map Message.sender

def findEntry (s : AppState) (id : String) : Option Chat :=
  s.chatHistory.find? (fun chat => chat.id == id)

def otherSender : Sender → Sender
  | Sender.user => Sender.bot
  | Sender.bot => Sender.user

/-- `alternatesFrom e l`: the senders in `l` are `e`, `otherSender e`, `e`, …  -/
def alternatesFrom : Sender → List Sender → Bool
  | _, [] => true
  | e, sd :: rest => sd == e && alternatesFrom (otherSender e) rest

/-- bot, user, bot, user, … -/
def alternatesFromBot (l : List Sender) : Bool := alternatesFrom Sender.bot l

/-! ## Basic lemmas -/

theorem updateMessagesOfFirst_map_id (history : List Chat) (id : String)
    (messages : List Message) :
    (updateMessagesOfFirst history id messages).map Chat.id = history.map Chat.id := by
  induction history with
  | nil => rfl
  | cons e rest ih =>
    by_cases h : e.id = id <;> simp [updateMessagesOfFirst, h, ih]

theorem updateMessagesOfFirst_of_not_mem (history : List Chat) (id : String)
    (messages : List Message) (h : id ∉ history.map Chat.id) :
    updateMessagesOfFirst history id messages = history := by
  induction history with
  | nil => rfl
  | cons e rest ih =>
    simp only [List.map_cons, List.mem_cons] at h
    push_neg at h
    have hne : ¬ e.id = id := fun he => h.1 he.symm
    simp [updateMessagesOfFirst, hne, ih h.2]

theorem mem_updateMessagesOfFirst (history : List Chat) (id : String)
    (messages : List Message) (e' : Chat) (h : e' ∈ updateMessagesOfFirst history id messages) :
    e' ∈ history ∨ ∃ e ∈ history, e' = { e with messages := messages } := by
  induction history with
  | nil => simp [updateMessagesOfFirst] at h
  | cons a rest ih =>
    by_cases ha : a.id = id
    · simp only [updateMessagesOfFirst, if_pos ha, List.mem_cons] at h
      rcases h with h | h
      · exact Or.inr ⟨a, List.mem_cons_self a rest, h⟩
      · exact Or.inl (List.mem_cons_of_mem a h)
    · simp only [updateMessagesOfFirst, if_neg ha, List.mem_cons] at h
      rcases h with h | h
      · exact Or.inl (h ▸ List.mem_cons_self a rest)
      · rcases ih h with h | ⟨e, he, rfl⟩
        · exact Or.inl (List.mem_cons_of_mem a h)
        · exact Or.inr ⟨e, List.mem_cons_of_mem a he, rfl⟩

/-- With no duplicate ids, the find-and-mutate update is pointwise: the
matching entry gets the new message list, every other entry is untouched. -/
theorem updateMessagesOfFirst_eq_map (history : List Chat) (id : String)
    (messages : List Message) (hnd : (history.map Chat.id).Nodup) :
    updateMessagesOfFirst history id messages =
      history.map fun e => if e.id = id then { e with messages := messages } else e := by
  induction history with
  | nil => rfl
  | cons a rest ih =>
    simp only [List.map_cons, List.nodup_cons] at hnd
    by_cases ha : a.id = id
    · have : ∀ e ∈ rest, ¬ e.id = id := by
        intro e he heq
        exact hnd.1 (by rw [ha, ← heq]; exact List.mem_map_of_mem Chat.id he)
      simp only [updateMessagesOfFirst, if_pos ha, List.map_cons, if_pos ha]
      rw [List.map_congr_left fun e he => if_neg (this e he), List.map_id']
    · simp [updateMessagesOfFirst, if_neg ha, ih hnd.2]

theorem find?_updateMessagesOfFirst_self (history : List Chat) (id : String)
    (messages : List Message) :
    (updateMessagesOfFirst history id messages).find? (fun chat => chat.id == id) =
      (history.find? (fun chat => chat.id == id)).map
        fun e => { e with messages := messages } := by
  induction history with
  | nil => rfl
  | cons a rest ih =>
    by_cases ha : a.id = id
    · simp [updateMessagesOfFirst, if_pos ha, List.find?_cons, beq_iff_eq, ha]
    · have hba : (a.id == id) = false := beq_eq_false_iff_ne.mpr ha
      simp [updateMessagesOfFirst, if_neg ha, List.find?_cons, hba, ih]

theorem find?_updateMessagesOfFirst_other (history : List Chat) (id i : String)
    (messages : List Message) (hne : i ≠ id) :
    (updateMessagesOfFirst history id messages).find? (fun chat => chat.id == i) =
      history.find? (fun chat => chat.id == i) := by
  induction history with
  | nil => rfl
  | cons a rest ih =>
    by_cases ha : a.id = id
    · have hb : (a.id == i) = false :=
        beq_eq_false_iff_ne.mpr fun h => hne (h.symm.trans ha)
      simp [updateMessagesOfFirst, if_pos ha, List.find?_cons, hb]
    · by_cases hai : a.id = i
      · have hb : (a.id == i) = true := beq_iff_eq.mpr hai
        simp [updateMessagesOfFirst, if_neg ha, List.find?_cons, hb]
      · have hb : (a.id == i) = false := beq_eq_false_iff_ne.mpr hai
        simp [updateMessagesOfFirst, if_neg ha, List.find?_cons, hb, ih]

/-- Finding through a filter that only removed non-matching elements. -/
theorem find?_filter_of_imp {α : Type} (l : List α) (p q : α → Bool)
    (h : ∀ x, p x = true → q x = true) :
    (l.filter q).find? p = l.find? p := by
  induction l with
  | nil => rfl
  | cons a rest ih =>
    by_cases hq : q a = true
    · by_cases hp : p a = true
      · simp [List.filter_cons, hq, List.find?_cons, hp]
      · simp only [Bool.not_eq_true] at hp
        simp [List.filter_cons, hq, List.find?_cons, hp, ih]
    · have hp : p a = false := by
        cases hpa : p a
        · rfl
        · exact absurd (h a hpa) hq
      simp only [Bool.not_eq_true] at hq
      simp [List.filter_cons, hq, List.find?_cons, hp, ih]

/-- In a list with no duplicate ids, `find` on a member's id returns that
member. -/
theorem find?_eq_of_mem_nodup (history : List Chat) (e : Chat)
    (hnd : (history.map Chat.id).Nodup) (hm : e ∈ history) :
    history.find? (fun chat => chat.id == e.id) = some e := by
  induction history with
  | nil => simp at hm
  | cons a rest ih =>
    simp only [List.map_cons, List.nodup_cons] at hnd
    rcases List.mem_cons.mp hm with rfl | hm
    · simp [List.find?_cons]
    · have hane : a.id ≠ e.id := fun h =>
        hnd.1 (h ▸ List.mem_map_of_mem Chat.id hm)
      have : (a.id == e.id) = false := beq_eq_false_iff_ne.mpr hane
      simp [List.find?_cons, this, ih hnd.2 hm]

theorem head?_append_singleton {α : Type} (l : List α) (x : α) (h : l ≠ []) :
    (l ++ [x]).head? = l.head? := by
  cases l <;> simp_all

theorem jsTrim_eq_empty (v : String) (h : ∀ c ∈ v.data, isJsWhitespace c) :
    jsTrim v = "" := by
  unfold jsTrim
  rw [List.dropWhile_eq_nil_iff.mpr h]
  rfl

/-! ## The reachable-state invariant -/

/-- What holds of every persisted entry: it was promoted from a live session
(greeting plus at least one user message), so it has at least two messages
and the greeting — a bot message — sits at position 0. -/
def goodEntry (c : Chat) : Prop :=
  2 ≤ c.messages.length ∧ headSender c = some Sender.bot

/-- What holds of every live session object: non-empty, greeting first. -/
def goodCur (c : Chat) : Prop :=
  c.messages ≠ [] ∧ headSender c = some Sender.bot

/-- The invariant every reachable state satisfies (no assumption on clock
readings): the persisted ids are unique, every persisted entry is good, on
the chat screen the working chat exists and carries `currentChatId`, and
any working chat is good. -/
structure Inv (s : AppState) : Prop where
  nodup : (historyIds s).Nodup
  entries : ∀ e ∈ s.chatHistory, goodEntry e
  chatScreen : s.screen = Screen.chat → ∃ c, s.currentChat = some c ∧ c.id = s.currentChatId
  curGood : ∀ c, s.currentChat = some c → goodCur c

theorem inv_startNewChat (s : AppState) (now nowIso : String) (h : Inv s) :
    Inv (startNewChat s now nowIso) := by
  refine ⟨h.nodup, h.entries, fun _ => ⟨_, rfl, rfl⟩, fun c hc => ?_⟩
  simp only [startNewChat, Option.some.injEq] at hc
  subst hc
  exact ⟨by simp, rfl⟩

theorem inv_handleOptionSelect (s : AppState) (option now nowIso : String) (h : Inv s) :
    Inv (handleOptionSelect s option now nowIso) := by
  have hbase :
      Inv { s with currentChatType := option, chatTitle := chatTitleFor option s.chatTitle } :=
    ⟨h.nodup, h.entries, h.chatScreen, h.curGood⟩
  by_cases hcond : (option = "medical" ∨ option = "checkup") ∧ s.profile = none
  · have hgate : Inv { s with currentChatType := option, chatTitle := chatTitleFor option s.chatTitle, screen := Screen.profileEntry } :=
      ⟨h.nodup, h.entries, fun hs => Screen.noConfusion hs, h.curGood⟩
    simpa [handleOptionSelect, hcond] using hgate
  · simpa [handleOptionSelect, hcond] using
      inv_startNewChat _ now nowIso hbase

theorem inv_handleProfileSubmit (s : AppState) (name age sex description now nowIso : String)
    (h : Inv s) : Inv (handleProfileSubmit s name age sex description now nowIso) :=
  inv_startNewChat _ now nowIso ⟨h.nodup, h.entries, h.chatScreen, h.curGood⟩

theorem inv_sendMessage (s : AppState) (v nowIso : String) (h : Inv s)
    (hs : s.screen = Screen.chat) : Inv (sendMessage s v nowIso) := by
  unfold sendMessage
  by_cases ht : jsTrim v = ""
  · simpa [ht] using h
  · rw [if_neg ht]
    obtain ⟨c, hc, hcid⟩ := h.chatScreen hs
    obtain ⟨hcne, hchead⟩ := h.curGood c hc
    rw [hc]
    simp only
    set u : Message := { sender := Sender.user, content := jsTrim v, timestamp := nowIso }
    have hgood : goodEntry { c with messages := c.messages ++ [u] } := by
      refine ⟨?_, ?_⟩
      · have : 1 ≤ c.messages.length := List.length_pos.mpr hcne
        simp only [List.length_append, List.length_singleton]
        omega
      · show ((c.messages ++ [u]).head?).map Message.sender = some Sender.bot
        rw [head?_append_singleton c.messages u hcne]
        exact hchead
    by_cases hmem : s.chatHistory.any (fun chat => chat.id == s.currentChatId)
    · rw [if_neg (by simpa using hmem)]
      refine ⟨?_, ?_, ?_, ?_⟩
      · show ((updateMessagesOfFirst _ _ _).map Chat.id).Nodup
        rw [updateMessagesOfFirst_map_id]
        exact h.nodup
      · intro e' he'
        rcases mem_updateMessagesOfFirst _ _ _ _ he' with hm | ⟨e, hm, rfl⟩
        · exact h.entries e' hm
        · obtain ⟨he2, hehead⟩ := h.entries e hm
          refine ⟨?_, ?_⟩
          · have : 1 ≤ c.messages.length := List.length_pos.mpr hcne
            simp only [List.length_append, List.length_singleton]
            omega
          · show ((c.messages ++ [u]).head?).map Message.sender = some Sender.bot
            rw [head?_append_singleton c.messages u hcne]
            exact hchead
      · intro _
        exact ⟨_, rfl, hcid⟩
      · intro c' hc'
        simp only [Option.some.injEq] at hc'
        subst hc'
        exact ⟨by simp, hgood.2⟩
    · rw [if_pos (by simpa using hmem)]
      have hnotin : s.currentChatId ∉ historyIds s := by
        intro hin
        apply hmem
        obtain ⟨e, hme, hid⟩ := List.mem_map.mp hin
        exact List.any_eq_true.mpr ⟨e, hme, beq_iff_eq.mpr hid⟩
      refine ⟨?_, ?_, ?_, ?_⟩
      · show ((s.chatHistory ++ [_]).map Chat.id).Nodup
        rw [List.map_append]
        rw [List.nodup_append]
        refine ⟨h.nodup, List.nodup_singleton _, ?_⟩
        intro x hx hx1
        simp only [List.map_cons, List.map_nil, List.mem_singleton] at hx1
        subst hx1
        exact hnotin (by simpa [historyIds, hcid] using hx)
      · intro e' he'
        rcases List.mem_append.mp he' with hm | hm
        · exact h.entries e' hm
        · rw [List.mem_singleton.mp hm]
          exact hgood
      · intro _
        exact ⟨_, rfl, hcid⟩
      · intro c' hc'
        simp only [Option.some.injEq] at hc'
        subst hc'
        exact ⟨by simp, hgood.2⟩

theorem inv_deliverBotReply (s : AppState) (reply : PendingReply) (nowIso nowLocale : String)
    (h : Inv s) : Inv (deliverBotReply s reply nowIso nowLocale) := by
  cases hc : s.currentChat with
  | none =>
    have : deliverBotReply s reply nowIso nowLocale = s := by
      unfold deliverBotReply
      rw [hc]
    rw [this]
    exact h
  | some c =>
    obtain ⟨hcne, hchead⟩ := h.curGood c hc
    unfold deliverBotReply
    rw [hc]
    simp only
    set b : Message := { sender := Sender.bot, content := reply.botResponse, timestamp := nowIso }
    refine ⟨?_, ?_, ?_, ?_⟩
    · show ((updateMessagesOfFirst _ _ _).map Chat.id).Nodup
      rw [updateMessagesOfFirst_map_id]
      exact h.nodup
    · intro e' he'
      rcases mem_updateMessagesOfFirst _ _ _ _ he' with hm | ⟨e, hm, rfl⟩
      · exact h.entries e' hm
      · refine ⟨?_, ?_⟩
        · have : 1 ≤ c.messages.length := List.length_pos.mpr hcne
          simp only [List.length_append, List.length_singleton]
          omega
        · show ((c.messages ++ [b]).head?).map Message.sender = some Sender.bot
          rw [head?_append_singleton c.messages b hcne]
          exact hchead
    · intro hs
      obtain ⟨c0, hc0, hid0⟩ := h.chatScreen hs
      rw [hc] at hc0
      simp only [Option.some.injEq] at hc0
      subst hc0
      exact ⟨_, rfl, hid0⟩
    · intro c' hc'
      simp only [Option.some.injEq] at hc'
      subst hc'
      refine ⟨by simp, ?_⟩
      show ((c.messages ++ [b]).head?).map Message.sender = some Sender.bot
      rw [head?_append_singleton c.messages b hcne]
      exact hchead

theorem inv_handleBackFromChat (s : AppState) (h : Inv s) : Inv (handleBackFromChat s) := by
  have hkeep : Inv (showInitialScreen s) :=
    ⟨h.nodup, h.entries, fun hs => Screen.noConfusion hs, h.curGood⟩
  have hfilter : Inv (showInitialScreen
      { s with chatHistory :=
          s.chatHistory.filter (fun chat => chat.id != s.currentChatId) }) := by
    refine ⟨?_, ?_, fun hs => Screen.noConfusion hs, h.curGood⟩
    · exact h.nodup.sublist ((List.filter_sublist s.chatHistory).map Chat.id)
    · intro e' he'
      exact h.entries e' (List.mem_of_mem_filter he')
  cases hc : s.currentChat with
  | none => simpa [handleBackFromChat, hc] using hfilter
  | some c =>
    by_cases hlen : 1 < c.messages.length
    · simpa [handleBackFromChat, hc, hlen] using hkeep
    · simpa [handleBackFromChat, hc, hlen] using hfilter

theorem inv_loadChat (s : AppState) (chatId : String) (h : Inv s) : Inv (loadChat s chatId) := by
  unfold loadChat
  cases hf : s.chatHistory.find? (fun chat => chat.id == chatId) with
  | none => exact h
  | some chat =>
    have hm := List.mem_of_find?_eq_some hf
    have hid : chat.id = chatId := by
      have hp := List.find?_some hf
      simpa using hp
    obtain ⟨hlen, hhead⟩ := h.entries chat hm
    refine ⟨h.nodup, h.entries, fun _ => ⟨chat, rfl, hid⟩, ?_⟩
    intro c hc
    simp only [Option.some.injEq] at hc
    subst hc
    refine ⟨?_, hhead⟩
    intro hnil
    rw [hnil] at hlen
    simp at hlen

theorem inv_step (s : AppState) (ev : Ev) (h : Inv s) : Inv (step s ev) := by
  cases ev with
  | selectOption option now nowIso =>
    show Inv (if s.screen = Screen.initial then handleOptionSelect s option now nowIso else s)
    split
    · exact inv_handleOptionSelect s option now nowIso h
    · exact h
  | profileSubmit name age sex description now nowIso =>
    show Inv (if s.screen = Screen.profileEntry then
      handleProfileSubmit s name age sex description now nowIso else s)
    split
    · exact inv_handleProfileSubmit s name age sex description now nowIso h
    · exact h
  | submit v nowIso =>
    show Inv (if s.screen = Screen.chat then sendMessage s v nowIso else s)
    split
    · exact inv_sendMessage s v nowIso h (by assumption)
    · exact h
  | timerFire nowIso nowLocale =>
    cases hp : s.pending with
    | nil => simpa [step, hp] using h
    | cons reply rest =>
      have hstep : step s (Ev.timerFire nowIso nowLocale) =
          deliverBotReply { s with pending := rest } reply nowIso nowLocale := by
        simp [step, hp]
      rw [hstep]
      exact inv_deliverBotReply _ reply nowIso nowLocale
        ⟨h.nodup, h.entries, h.chatScreen, h.curGood⟩
  | back =>
    show Inv (if s.screen = Screen.chat then handleBackFromChat s else s)
    split
    · exact inv_handleBackFromChat s h
    · exact h
  | load chatId =>
    show Inv (if s.screen = Screen.initial then loadChat s chatId else s)
    split
    · exact inv_loadChat s chatId h
    · exact h
  | deleteHistory =>
    show Inv (if s.screen = Screen.initial then deleteAllHistory s else s)
    split
    · exact ⟨List.nodup_nil, fun e he => absurd he (List.not_mem_nil e), h.chatScreen, h.curGood⟩
    · exact h

theorem inv_initState : Inv initState :=
  ⟨List.nodup_nil, fun e he => absurd he (List.not_mem_nil e),
   fun hs => Screen.noConfusion hs, fun c hc => Option.noConfusion hc⟩

theorem inv_run_of (evs : List Ev) (s : AppState) (h : Inv s) : Inv (run s evs) := by
  induction evs generalizing s with
  | nil => exact h
  | cons ev rest ih => exact ih (step s ev) (inv_step s ev h)

theorem inv_run (evs : List Ev) : Inv (run initState evs) :=
  inv_run_of evs initState inv_initState

/-! ## Claim C1 -/

/-- C1, counterexample: the claim says neither load ever raises on malformed
stored JSON; in the code both call `JSON.parse` unguarded, so on a stored
string `JSON.parse` rejects (e.g. `"{"`, the `Stored.malformed` case) both
throw a SyntaxError instead of returning a default. -/
theorem C1_counterexample :
    loadProfile Stored.malformed = Except.error JsException.syntaxError ∧
    getChatHistory Stored.malformed = Except.error JsException.syntaxError :=
  ⟨rfl, rfl⟩

/-- C1 (amended): loading is fail-soft only for absent data — `loadProfile`
yields no profile and `getChatHistory` yields the empty list when nothing is
stored, and each returns the parsed value when the stored string parses; a
malformed stored string makes either raise (the `JSON.parse` exception
propagates to the caller). -/
theorem C1_load_failsoft_only_for_absent (p : Profile) (h : List Chat) :
    loadProfile Stored.absent = Except.ok none ∧
    getChatHistory Stored.absent = Except.ok [] ∧
    loadProfile (Stored.parsed p) = Except.ok (some p) ∧
    getChatHistory (Stored.parsed h) = Except.ok h ∧
    loadProfile Stored.malformed = Except.error JsException.syntaxError ∧
    getChatHistory Stored.malformed = Except.error JsException.syntaxError :=
  ⟨rfl, rfl, rfl, rfl, rfl, rfl⟩

/-! ## Claim C4 -/

/-- C4: appendToDescription (updateProfileWithChatInfo) is a no-op when no
profile exists; on an empty description it writes
`nowLocale ++ ": " ++ text` with no leading separator, on a non-empty one it
appends `"\n\n---\n\n" ++ nowLocale ++ ": " ++ text` after the prior
content; in both cases `updatedAt` becomes the current ISO timestamp, and
the result is what gets persisted (the profile record is write-through). -/
theorem C4_append_to_description (p : Profile) (userMessage nowLocale nowIso : String) :
    updateProfileWithChatInfo none userMessage nowLocale nowIso = none ∧
    (p.description = "" →
      updateProfileWithChatInfo (some p) userMessage nowLocale nowIso =
        some { p with description := nowLocale ++ ": " ++ userMessage, updatedAt := nowIso }) ∧
    (p.description ≠ "" →
      updateProfileWithChatInfo (some p) userMessage nowLocale nowIso =
        some { p with
          description := p.description ++ "\n\n---\n\n" ++ nowLocale ++ ": " ++ userMessage,
          updatedAt := nowIso }) := by
  refine ⟨rfl, fun hd => ?_, fun hd => ?_⟩
  · simp [updateProfileWithChatInfo, hd]
  · simp [updateProfileWithChatInfo, hd]

/-- C4, witness: the theorem at a concrete profile with empty and with
non-empty description. -/
theorem C4_append_to_description_witness :
    updateProfileWithChatInfo (some ⟨"Ann", "30", "f", "", "t0"⟩) "felt dizzy" "Jan 1" "t1" =
      some ⟨"Ann", "30", "f", "Jan 1: felt dizzy", "t1"⟩ ∧
    updateProfileWithChatInfo (some ⟨"Ann", "30", "f", "prior", "t0"⟩) "felt dizzy" "Jan 1" "t1" =
      some ⟨"Ann", "30", "f", "prior\n\n---\n\nJan 1: felt dizzy", "t1"⟩ :=
  ⟨(C4_append_to_description ⟨"Ann", "30", "f", "", "t0"⟩ "felt dizzy" "Jan 1" "t1").2.1 rfl,
   (C4_append_to_description ⟨"Ann", "30", "f", "prior", "t0"⟩ "felt dizzy" "Jan 1" "t1").2.2
     (by decide)⟩

/-! ## Claim C5 -/

/-- C5: the response table is a pure function of the category alone — for
any two user texts the reply (text and flag) is the same, and the
profile-update flag is set exactly for the `medical` and `checkup`
categories (false for `learning` and for any other value, the `default`
branch). -/
theorem C5_policy_pure_function_of_category (category t1 t2 : String) :
    generateBotResponsePolicy category t1 = generateBotResponsePolicy category t2 ∧
    ((generateBotResponsePolicy category t1).2 = true ↔
      category = "medical" ∨ category = "checkup") := by
  unfold generateBotResponsePolicy
  split_ifs with h1 h2 h3 <;> simp_all

/-! ## Claim C7 -/

/-- C7: submitting empty or whitespace-only text is a complete no-op — the
state (current chat, persisted history, profile, and the timer queue, so no
bot reply is scheduled) is returned unchanged, and no error is raised
(sendMessage is total). -/
theorem C7_whitespace_submit_noop (s : AppState) (messageInputValue nowIso : String)
    (h : ∀ c ∈ messageInputValue.data, isJsWhitespace c) :
    sendMessage s messageInputValue nowIso = s := by
  unfold sendMessage
  rw [jsTrim_eq_empty messageInputValue h]
  rfl

/-- C7, witness: a whitespace-only submission from the freshly initialised
state changes nothing. -/
theorem C7_whitespace_submit_noop_witness :
    sendMessage initState " \t " "t0" = initState :=
  C7_whitespace_submit_noop initState " \t " "t0" (by decide)

/-! ## Claim C6 -/

/-- C6, counterexample: the session id is `Date.now().toString()`, so two
sessions started at the same millisecond get the same id — after a learning
chat started at clock reading "5" is promoted and closed, a second
`startNewChat` at clock reading "5" allocates `currentChatId = "5"`, which
is *not* distinct from the persisted entry's id. -/
theorem C6_counterexample :
    (run initState [Ev.selectOption "learning" "5" "t1", Ev.submit "hi" "t2", Ev.back,
      Ev.selectOption "learning" "5" "t3"]).currentChatId = "5" ∧
    "5" ∈ historyIds (run initState [Ev.selectOption "learning" "5" "t1",
      Ev.submit "hi" "t2", Ev.back, Ev.selectOption "learning" "5" "t3"]) := by
  decide

/-- C6 (amended): startSession derives the id from the clock
(`Date.now().toString()`), so ids repeat when two sessions start at the same
millisecond and the allocated id need not be distinct from existing ids;
nevertheless the persisted history always has unique entry ids in every
reachable state, because promotion pushes a new entry only when no entry
with `currentChatId` exists (sendMessage's membership guard) and every other
operation preserves or only removes ids. -/
theorem C6_history_ids_unique (evs : List Ev) :
    (historyIds (run initState evs)).Nodup :=
  (inv_run evs).nodup

/-! ## Claim C2 -/

/-- C2 (amended): provided the session id is absent from the persisted
history (true whenever the session's start-clock reading differs from those
of all persisted entries), the first accepted message appends exactly one
entry — the session snapshot, carrying the session id — to the history;
when the id is already present (a resumed session, or an id collision, in
which case the colliding entry is captured instead of a new one being
added), an accepted message leaves the entry count and every other entry
unchanged and only replaces the message list of the entry with that id; and
resuming via loadChat yields a working chat whose id is the stored entry's,
so subsequent sends hit the same entry. -/
theorem C2_first_message_promotes_then_upserts (s : AppState) (c : Chat) (v nowIso : String)
    (hnd : (historyIds s).Nodup)
    (hc : s.currentChat = some c) (hcid : c.id = s.currentChatId)
    (hacc : jsTrim v ≠ "") :
    (s.currentChatId ∉ historyIds s →
      (sendMessage s v nowIso).chatHistory =
        s.chatHistory ++
          [{ c with messages := c.messages ++
              [{ sender := Sender.user, content := jsTrim v, timestamp := nowIso }] }]) ∧
    (s.currentChatId ∈ historyIds s →
      (sendMessage s v nowIso).chatHistory =
        s.chatHistory.map fun e =>
          if e.id = s.currentChatId then
            { e with messages := c.messages ++
                [{ sender := Sender.user, content := jsTrim v, timestamp := nowIso }] }
          else e) ∧
    (∀ e ∈ s.chatHistory,
      (loadChat s e.id).currentChat = some e ∧
      (loadChat s e.id).currentChatId = e.id ∧
      (loadChat s e.id).chatHistory = s.chatHistory) := by
  refine ⟨?_, ?_, ?_⟩
  · intro hnotin
    have hany : s.chatHistory.any (fun chat => chat.id == s.currentChatId) = false := by
      rw [Bool.eq_false_iff]
      intro hany
      obtain ⟨e, hme, hide⟩ := List.any_eq_true.mp hany
      exact hnotin (List.mem_map.mpr ⟨e, hme, beq_iff_eq.mp hide⟩)
    unfold sendMessage
    rw [if_neg hacc, hc]
    simp [hany]
  · intro hin
    have hany : s.chatHistory.any (fun chat => chat.id == s.currentChatId) = true := by
      obtain ⟨e, hme, hide⟩ := List.mem_map.mp hin
      exact List.any_eq_true.mpr ⟨e, hme, beq_iff_eq.mpr hide⟩
    unfold sendMessage
    rw [if_neg hacc, hc]
    simp only [hany, Bool.not_true, if_neg, Bool.false_eq_true, not_false_eq_true]
    exact updateMessagesOfFirst_eq_map s.chatHistory s.currentChatId _ hnd
  · intro e hme
    have hf : s.chatHistory.find? (fun chat => chat.id == e.id) = some e :=
      find?_eq_of_mem_nodup s.chatHistory e hnd hme
    unfold loadChat
    rw [hf]
    exact ⟨rfl, rfl, rfl⟩

/-- C2, witness: in the session started from empty storage at clock reading
"5" (learning category), the first accepted message "hi" appends exactly the
promoted snapshot to the empty history. -/
theorem C2_first_message_promotes_then_upserts_witness :
    (sendMessage (run initState [Ev.selectOption "learning" "5" "t1"]) "hi" "t2").chatHistory =
      [{ id := "5",
         type := "learning",
         title := "Learning",
         createdAt := "t1",
         messages := [⟨Sender.bot, "Hello! What would you like to learn about today?", "t1"⟩,
                      ⟨Sender.user, "hi", "t2"⟩] }] :=
  (C2_first_message_promotes_then_upserts
    (run initState [Ev.selectOption "learning" "5" "t1"])
    { id := "5",
      type := "learning",
      title := "Learning",
      createdAt := "t1",
      messages := [⟨Sender.bot, "Hello! What would you like to learn about today?", "t1"⟩] }
    "hi" "t2" (by decide) rfl rfl (by decide)).1 (by decide)

/-- C2, counterexample: the claim as stated fails under an id collision —
after a promoted learning chat with id "5" is closed, a *new* session
started at the same clock reading "5" has its first accepted message
"again" update the old entry in place instead of adding a new
HistoryEntry: the entry count stays 1 although the claim demands it grow
by one.  (The third conjunct records that the new session had no accepted
message yet: its working chat holds only the greeting.) -/
theorem C2_counterexample :
    jsTrim "again" ≠ "" ∧
    (run initState [Ev.selectOption "learning" "5" "t1", Ev.submit "hi" "t2",
      Ev.timerFire "t3" "L3", Ev.back, Ev.selectOption "learning" "5" "t4"]).chatHistory.length
      = 1 ∧
    ((run initState [Ev.selectOption "learning" "5" "t1", Ev.submit "hi" "t2",
      Ev.timerFire "t3" "L3", Ev.back, Ev.selectOption "learning" "5" "t4"]).currentChat.map
        fun c => c.messages.length) = some 1 ∧
    (step (run initState [Ev.selectOption "learning" "5" "t1", Ev.submit "hi" "t2",
      Ev.timerFire "t3" "L3", Ev.back, Ev.selectOption "learning" "5" "t4"])
      (Ev.submit "again" "t5")).chatHistory.length = 1 := by
  decide

/-! ## Claim C8 -/

/-- The events that can occur while a session is open without leaving it:
message submissions and timer firings. -/
def isSessionEv : Ev → Bool
  | Ev.submit _ _ => true
  | Ev.timerFire _ _ => true
  | _ => false

theorem deliverBotReply_frame (s : AppState) (reply : PendingReply) (tIso tLoc : String)
    (hid : s.currentChatId ∉ historyIds s) :
    (deliverBotReply s reply tIso tLoc).chatHistory = s.chatHistory ∧
    (deliverBotReply s reply tIso tLoc).currentChatId = s.currentChatId := by
  cases hc : s.currentChat with
  | none =>
    have heq : deliverBotReply s reply tIso tLoc = s := by
      unfold deliverBotReply
      rw [hc]
    rw [heq]
    exact ⟨rfl, rfl⟩
  | some c =>
    unfold deliverBotReply
    rw [hc]
    exact ⟨updateMessagesOfFirst_of_not_mem _ _ _ hid, rfl⟩

/-- While the working session's id is not in the history and no submission
is accepted, no session event ever touches the history (or the id). -/
theorem session_run_frame (evs : List Ev) (s1 : AppState)
    (hevs : ∀ ev ∈ evs, isSessionEv ev = true)
    (hrej : ∀ v t, Ev.submit v t ∈ evs → jsTrim v = "")
    (hid : s1.currentChatId ∉ historyIds s1) :
    (run s1 evs).chatHistory = s1.chatHistory ∧
    (run s1 evs).currentChatId = s1.currentChatId := by
  induction evs generalizing s1 with
  | nil => exact ⟨rfl, rfl⟩
  | cons ev rest ih =>
    have hev := hevs ev (List.mem_cons_self ev rest)
    have hstep : (step s1 ev).chatHistory = s1.chatHistory ∧
        (step s1 ev).currentChatId = s1.currentChatId := by
      cases ev with
      | submit v t =>
        have hv : jsTrim v = "" := hrej v t (List.mem_cons_self _ _)
        show ((if s1.screen = Screen.chat then sendMessage s1 v t else s1).chatHistory
            = s1.chatHistory) ∧
          ((if s1.screen = Screen.chat then sendMessage s1 v t else s1).currentChatId
            = s1.currentChatId)
        split
        · simp [sendMessage, hv]
        · exact ⟨rfl, rfl⟩
      | timerFire tIso tLoc =>
        cases hp : s1.pending with
        | nil => simp [step, hp]
        | cons reply restp =>
          have hstep2 : step s1 (Ev.timerFire tIso tLoc) =
              deliverBotReply { s1 with pending := restp } reply tIso tLoc := by
            simp [step, hp]
          rw [hstep2]
          exact deliverBotReply_frame { s1 with pending := restp } reply tIso tLoc hid
      | selectOption option now nowIso => simp [isSessionEv] at hev
      | profileSubmit name age sex description now nowIso => simp [isSessionEv] at hev
      | back => simp [isSessionEv] at hev
      | load chatId => simp [isSessionEv] at hev
      | deleteHistory => simp [isSessionEv] at hev
    have hid2 : (step s1 ev).currentChatId ∉ historyIds (step s1 ev) := by
      show (step s1 ev).currentChatId ∉ ((step s1 ev).chatHistory.map Chat.id)
      rw [hstep.1, hstep.2]
      exact hid
    have hrest := ih (step s1 ev)
      (fun e he => hevs e (List.mem_cons_of_mem ev he))
      (fun v t hm => hrej v t (List.mem_cons_of_mem ev hm)) hid2
    refine ⟨?_, ?_⟩
    · show (run (step s1 ev) rest).chatHistory = s1.chatHistory
      rw [hrest.1, hstep.1]
    · show (run (step s1 ev) rest).currentChatId = s1.currentChatId
      rw [hrest.2, hstep.2]

theorem handleBackFromChat_history_of_not_mem (s2 : AppState)
    (h : s2.currentChatId ∉ historyIds s2) :
    (handleBackFromChat s2).chatHistory = s2.chatHistory := by
  have hfil : s2.chatHistory.filter (fun chat => chat.id != s2.currentChatId)
      = s2.chatHistory := by
    apply List.filter_eq_self.mpr
    intro e he
    exact bne_iff_ne.mpr fun heq => h (heq ▸ List.mem_map_of_mem Chat.id he)
  cases hc : s2.currentChat with
  | none => simp [handleBackFromChat, hc, hfil, showInitialScreen]
  | some c =>
    by_cases hlen : 1 < c.messages.length
    · simp [handleBackFromChat, hc, hlen, showInitialScreen]
    · simp [handleBackFromChat, hc, hlen, showInitialScreen, hfil]

/-- C8 (amended): closing a session that was never promoted (its events were
only rejected submissions and timer firings, so no user message was ever
accepted) leaves the persisted history exactly as it was before
startNewChat, *provided* the session's id is absent from the history (true
whenever its start-clock reading differs from those of all persisted
entries); and closing any session whose working chat has more than one
message (every promoted session) never touches the history at all. -/
theorem C8_close_unpromoted_leaves_history (s : AppState) (now nowIso : String)
    (evs : List Ev)
    (hfresh : now ∉ historyIds s)
    (hevs : ∀ ev ∈ evs, isSessionEv ev = true)
    (hrej : ∀ v t, Ev.submit v t ∈ evs → jsTrim v = "") :
    (handleBackFromChat (run (startNewChat s now nowIso) evs)).chatHistory = s.chatHistory ∧
    (∀ s' c', s'.currentChat = some c' → 1 < c'.messages.length →
      (handleBackFromChat s').chatHistory = s'.chatHistory) := by
  constructor
  · have h0 : (startNewChat s now nowIso).currentChatId
        ∉ historyIds (startNewChat s now nowIso) := hfresh
    obtain ⟨hh, hid⟩ := session_run_frame evs (startNewChat s now nowIso) hevs hrej h0
    have hnotin2 : (run (startNewChat s now nowIso) evs).currentChatId
        ∉ historyIds (run (startNewChat s now nowIso) evs) := by
      show _ ∉ ((run (startNewChat s now nowIso) evs).chatHistory.map Chat.id)
      rw [hh, hid]
      exact hfresh
    rw [handleBackFromChat_history_of_not_mem _ hnotin2, hh]
    rfl
  · intro s' c' hc' hlen
    cases hkeep : s'.currentChat with
    | none => exact Option.noConfusion (hc' ▸ hkeep)
    | some c2 =>
      rw [hc'] at hkeep
      obtain rfl : c' = c2 := Option.some.inj hkeep
      simp [handleBackFromChat, hc', hlen, showInitialScreen]

/-- C8, witness: after a learning chat with id "5" is promoted, a new
session started at the distinct clock reading "7" in which only a
whitespace submission happens is closed, and the history is exactly what it
was before that session started. -/
theorem C8_close_unpromoted_leaves_history_witness :
    (handleBackFromChat (run (startNewChat (run initState
        [Ev.selectOption "learning" "5" "t1", Ev.submit "hi" "t2"]) "7" "t9")
      [Ev.submit " " "tx"])).chatHistory =
    (run initState [Ev.selectOption "learning" "5" "t1", Ev.submit "hi" "t2"]).chatHistory :=
  (C8_close_unpromoted_leaves_history
    (run initState [Ev.selectOption "learning" "5" "t1", Ev.submit "hi" "t2"])
    "7" "t9" [Ev.submit " " "tx"]
    (by decide) (by decide)
    (by
      intro v t hm
      rw [List.mem_singleton] at hm
      injection hm with h1 h2
      subst h1
      decide)).1

/-- C8, counterexample: the claim as stated fails under an id collision —
a promoted learning chat with id "5" sits in the history (length 1); a new
session started at the same clock reading "5" is closed before any user
message (its working chat holds only the greeting, length 1), yet the close
deletes the colliding persisted entry: the history shrinks to length 0
instead of staying as it was before the session started. -/
theorem C8_counterexample :
    (run initState [Ev.selectOption "learning" "5" "t1", Ev.submit "hi" "t2",
      Ev.timerFire "t3" "L3", Ev.back]).chatHistory.length = 1 ∧
    ((run initState [Ev.selectOption "learning" "5" "t1", Ev.submit "hi" "t2",
      Ev.timerFire "t3" "L3", Ev.back, Ev.selectOption "learning" "5" "t4"]).currentChat.map
        fun c => c.messages.length) = some 1 ∧
    (run initState [Ev.selectOption "learning" "5" "t1", Ev.submit "hi" "t2",
      Ev.timerFire "t3" "L3", Ev.back, Ev.selectOption "learning" "5" "t4",
      Ev.back]).chatHistory.length = 0 := by
  decide

/-! ## Claim C3 -/

theorem run_cons (s : AppState) (ev : Ev) (evs : List Ev) :
    run s (ev :: evs) = run (step s ev) evs := rfl

theorem run_append (s : AppState) (l1 l2 : List Ev) :
    run s (l1 ++ l2) = run (run s l1) l2 :=
  List.foldl_append step s l1 l2

theorem step_submit_chat (s : AppState) (v t : String) (hs : s.screen = Screen.chat) :
    step s (Ev.submit v t) = sendMessage s v t := by
  show (if s.screen = Screen.chat then sendMessage s v t else s) = _
  rw [if_pos hs]

theorem sendMessage_rejected (s : AppState) (v t : String) (hv : jsTrim v = "") :
    sendMessage s v t = s := by
  simp [sendMessage, hv]

theorem step_timerFire_nil (s : AppState) (tIso tLoc : String) (hp : s.pending = []) :
    step s (Ev.timerFire tIso tLoc) = s := by
  simp [step, hp]

theorem step_timerFire_cons (s : AppState) (reply : PendingReply)
    (restp : List PendingReply) (tIso tLoc : String) (hp : s.pending = reply :: restp) :
    step s (Ev.timerFire tIso tLoc) =
      deliverBotReply { s with pending := restp } reply tIso tLoc := by
  simp [step, hp]

theorem sendMessage_accepted_parts (s : AppState) (c : Chat) (v t : String)
    (hc : s.currentChat = some c) (hv : jsTrim v ≠ "") :
    (sendMessage s v t).currentChat =
      some { c with messages := c.messages ++ [⟨Sender.user, jsTrim v, t⟩] } ∧
    (sendMessage s v t).pending =
      s.pending ++ [⟨(generateBotResponsePolicy s.currentChatType (jsTrim v)).1,
        (generateBotResponsePolicy s.currentChatType (jsTrim v)).2, jsTrim v⟩] ∧
    (sendMessage s v t).screen = s.screen ∧
    (sendMessage s v t).currentChatId = s.currentChatId := by
  unfold sendMessage
  rw [if_neg hv, hc]
  exact ⟨rfl, rfl, rfl, rfl⟩

theorem deliverBotReply_parts (s : AppState) (c : Chat) (reply : PendingReply)
    (tIso tLoc : String) (hc : s.currentChat = some c) :
    (deliverBotReply s reply tIso tLoc).currentChat =
      some { c with messages := c.messages ++ [⟨Sender.bot, reply.botResponse, tIso⟩] } ∧
    (deliverBotReply s reply tIso tLoc).pending = s.pending ∧
    (deliverBotReply s reply tIso tLoc).screen = s.screen ∧
    (deliverBotReply s reply tIso tLoc).currentChatId = s.currentChatId := by
  unfold deliverBotReply
  rw [hc]
  exact ⟨rfl, rfl, rfl, rfl⟩

/-- The submissions a trace accepts (non-empty after trim): each schedules
one bot reply. -/
def acceptedCount : List Ev → Nat
  | [] => 0
  | Ev.submit v _ :: rest => (if jsTrim v = "" then 0 else 1) + acceptedCount rest
  | _ :: rest => acceptedCount rest

/-- Bookkeeping for any in-session interleaving: delivered messages plus
undelivered replies grow by exactly two per accepted submission. -/
theorem session_run_count (evs : List Ev) (s : AppState) (c : Chat)
    (hscreen : s.screen = Screen.chat) (hc : s.currentChat = some c)
    (hevs : ∀ ev ∈ evs, isSessionEv ev = true) :
    ∃ c', (run s evs).currentChat = some c' ∧ (run s evs).screen = Screen.chat ∧
      c'.messages.length + (run s evs).pending.length =
        c.messages.length + s.pending.length + 2 * acceptedCount evs := by
  induction evs generalizing s c with
  | nil => exact ⟨c, hc, hscreen, by simp [acceptedCount, run]⟩
  | cons ev rest ih =>
    have hev := hevs ev (List.mem_cons_self ev rest)
    have hrest : ∀ e ∈ rest, isSessionEv e = true :=
      fun e he => hevs e (List.mem_cons_of_mem ev he)
    cases ev with
    | submit v t =>
      rw [run_cons, step_submit_chat s v t hscreen]
      by_cases hv : jsTrim v = ""
      · rw [sendMessage_rejected s v t hv]
        obtain ⟨c', h1, h2, h3⟩ := ih s c hscreen hc hrest
        refine ⟨c', h1, h2, ?_⟩
        have hacc : acceptedCount (Ev.submit v t :: rest) = acceptedCount rest := by
          simp [acceptedCount, hv]
        rw [hacc]
        exact h3
      · obtain ⟨hcc, hcp, hcs, -⟩ := sendMessage_accepted_parts s c v t hc hv
        obtain ⟨c', h1, h2, h3⟩ := ih (sendMessage s v t) _ (hcs.trans hscreen) hcc hrest
        refine ⟨c', h1, h2, ?_⟩
        have hacc : acceptedCount (Ev.submit v t :: rest) = 1 + acceptedCount rest := by
          simp [acceptedCount, hv]
        have hlen : ({ c with messages :=
            c.messages ++ [⟨Sender.user, jsTrim v, t⟩] } : Chat).messages.length
            = c.messages.length + 1 := by simp
        have hpl : (sendMessage s v t).pending.length = s.pending.length + 1 := by
          rw [hcp]; simp
        rw [hacc]
        omega
    | timerFire tIso tLoc =>
      cases hp : s.pending with
      | nil =>
        rw [run_cons, step_timerFire_nil s tIso tLoc hp]
        obtain ⟨c', h1, h2, h3⟩ := ih s c hscreen hc hrest
        refine ⟨c', h1, h2, ?_⟩
        have hplen : s.pending.length = 0 := by rw [hp]; rfl
        show c'.messages.length + (run s rest).pending.length
            = c.messages.length + ([] : List PendingReply).length + 2 * acceptedCount rest
        simp only [List.length_nil]
        omega
      | cons reply restp =>
        rw [run_cons, step_timerFire_cons s reply restp tIso tLoc hp]
        obtain ⟨hcc, hcp, hcs, -⟩ :=
          deliverBotReply_parts { s with pending := restp } c reply tIso tLoc hc
        obtain ⟨c', h1, h2, h3⟩ :=
          ih (deliverBotReply { s with pending := restp } reply tIso tLoc) _
            (hcs.trans hscreen) hcc hrest
        refine ⟨c', h1, h2, ?_⟩
        have hlen : ({ c with messages :=
            c.messages ++ [⟨Sender.bot, reply.botResponse, tIso⟩] } : Chat).messages.length
            = c.messages.length + 1 := by simp
        have hpl : (deliverBotReply { s with pending := restp } reply tIso tLoc).pending.length
            = restp.length := by rw [hcp]
        show c'.messages.length +
            (run (deliverBotReply { s with pending := restp } reply tIso tLoc)
              rest).pending.length
            = c.messages.length + (reply :: restp).length + 2 * acceptedCount rest
        have hrl : (reply :: restp).length = restp.length + 1 := by simp
        omega
    | selectOption option now nowIso => simp [isSessionEv] at hev
    | profileSubmit name age sex description now nowIso => simp [isSessionEv] at hev
    | back => simp [isSessionEv] at hev
    | load chatId => simp [isSessionEv] at hev
    | deleteHistory => simp [isSessionEv] at hev

theorem otherSender_otherSender (e : Sender) : otherSender (otherSender e) = e := by
  cases e <;> rfl

theorem alternatesFrom_append_singleton (l : List Sender) (e x : Sender) :
    alternatesFrom e (l ++ [x]) =
      (alternatesFrom e l &&
        (x == (if l.length % 2 = 0 then e else otherSender e))) := by
  induction l generalizing e with
  | nil => simp [alternatesFrom]
  | cons a t ih =>
    show (a == e && alternatesFrom (otherSender e) (t ++ [x]))
        = ((a == e && alternatesFrom (otherSender e) t) &&
           (x == if (t.length + 1) % 2 = 0 then e else otherSender e))
    rw [ih (otherSender e), Bool.and_assoc]
    by_cases hpar : t.length % 2 = 0
    · have h1 : ¬ (t.length + 1) % 2 = 0 := by omega
      simp [hpar, h1]
    · have h1 : (t.length + 1) % 2 = 0 := by omega
      simp [hpar, h1, otherSender_otherSender]

theorem alternatesFromBot_append (l : List Sender) (x : Sender) :
    alternatesFromBot (l ++ [x]) =
      (alternatesFromBot l &&
        (x == (if l.length % 2 = 0 then Sender.bot else Sender.user))) := by
  have h := alternatesFrom_append_singleton l Sender.bot x
  simpa [alternatesFromBot, otherSender] using h

/-- A paced session script: each turn submits once and lets the scheduled
reply fire before the next turn (the four strings are the text box content
and the clock readings involved in the turn). -/
inductive Script where
  | done
  | turn (text submitIso fireIso fireLocale : String) (rest : Script)

/-- The event trace of a paced script. -/
def Script.events : Script → List Ev
  | Script.done => []
  | Script.turn text submitIso fireIso fireLocale rest =>
    Ev.submit text submitIso :: Ev.timerFire fireIso fireLocale :: rest.events

/-- The number of accepted turns of a paced script. -/
def Script.accepted : Script → Nat
  | Script.done => 0
  | Script.turn text _ _ _ rest => (if jsTrim text = "" then 0 else 1) + rest.accepted

/-- Under paced submissions (each reply fires before the next send) the
transcript stays alternating and grows by two per accepted turn. -/
theorem script_run_paced (script : Script) (s : AppState) (c : Chat)
    (hscreen : s.screen = Screen.chat) (hc : s.currentChat = some c)
    (hpend : s.pending = [])
    (halt : alternatesFromBot (senders c) = true)
    (hodd : c.messages.length % 2 = 1) :
    ∃ c', (run s script.events).currentChat = some c' ∧
      (run s script.events).screen = Screen.chat ∧
      (run s script.events).pending = [] ∧
      alternatesFromBot (senders c') = true ∧
      c'.messages.length = c.messages.length + 2 * script.accepted := by
  induction script generalizing s c with
  | done => exact ⟨c, hc, hscreen, hpend, halt, by simp [Script.accepted, run]⟩
  | turn v tsub tfire tloc rest ih =>
    simp only [Script.events]
    by_cases hv : jsTrim v = ""
    · rw [run_cons, step_submit_chat s v tsub hscreen, sendMessage_rejected s v tsub hv,
        run_cons, step_timerFire_nil s tfire tloc hpend]
      obtain ⟨c', h1, h2, h3, h4, h5⟩ := ih s c hscreen hc hpend halt hodd
      refine ⟨c', h1, h2, h3, h4, ?_⟩
      have hacc : (Script.turn v tsub tfire tloc rest).accepted = rest.accepted := by
        simp [Script.accepted, hv]
      rw [hacc]
      exact h5
    · obtain ⟨hcc, hcp, hcs, -⟩ := sendMessage_accepted_parts s c v tsub hc hv
      set s1 := sendMessage s v tsub with hs1
      set r : PendingReply := ⟨(generateBotResponsePolicy s.currentChatType (jsTrim v)).1,
        (generateBotResponsePolicy s.currentChatType (jsTrim v)).2, jsTrim v⟩ with hr
      set c1 : Chat := { c with messages := c.messages ++ [⟨Sender.user, jsTrim v, tsub⟩] }
        with hc1
      have hp1 : s1.pending = [r] := by
        rw [hcp, hpend]
        rfl
      obtain ⟨hdc, hdp, hds, -⟩ :=
        deliverBotReply_parts { s1 with pending := [] } c1 r tfire tloc hcc
      have hstep2 : step s1 (Ev.timerFire tfire tloc) =
          deliverBotReply { s1 with pending := [] } r tfire tloc :=
        step_timerFire_cons s1 r [] tfire tloc hp1
      set s2 := deliverBotReply { s1 with pending := [] } r tfire tloc with hs2
      set c2 : Chat := { c1 with messages := c1.messages ++ [⟨Sender.bot, r.botResponse, tfire⟩] }
        with hc2
      have hsenders1 : senders c1 = senders c ++ [Sender.user] := by
        simp [hc1, senders]
      have hsenders2 : senders c2 = senders c1 ++ [Sender.bot] := by
        simp [hc2, senders]
      have hlen1 : (senders c).length = c.messages.length := by simp [senders]
      have hlen1b : (senders c1).length = c.messages.length + 1 := by
        rw [hsenders1]
        simp [hlen1]
      have halt1 : alternatesFromBot (senders c1) = true := by
        rw [hsenders1, alternatesFromBot_append, hlen1]
        have hno : ¬ c.messages.length % 2 = 0 := by omega
        simp [halt, hno]
      have halt2 : alternatesFromBot (senders c2) = true := by
        rw [hsenders2, alternatesFromBot_append, hlen1b]
        have hyes : (c.messages.length + 1) % 2 = 0 := by omega
        simp [halt1, hyes]
      have hlen2 : c2.messages.length = c.messages.length + 2 := by
        simp [hc2, hc1]
      have hodd2 : c2.messages.length % 2 = 1 := by omega
      rw [run_cons, step_submit_chat s v tsub hscreen, ← hs1, run_cons, hstep2]
      obtain ⟨c', h1, h2, h3, h4, h5⟩ :=
        ih s2 c2 (hds.trans (hcs.trans hscreen)) hdc (hdp.trans rfl) halt2 hodd2
      refine ⟨c', h1, h2, h3, h4, ?_⟩
      have hacc : (Script.turn v tsub tfire tloc rest).accepted = 1 + rest.accepted := by
        simp [Script.accepted, hv]
      rw [hacc, h5, hlen2]
      omega

/-- C3 (amended): in a freshly started session (transcript = the greeting
alone, no reply pending), (i) for every in-session interleaving of
submissions and timer firings, once all scheduled replies have fired the
transcript length is 1 + 2 × (number of accepted submissions); and (ii)
when each scheduled reply fires before the next submission (a paced
script), the senders moreover alternate bot, user, bot, user, … starting
with the greeting.  (Alternation can fail for unpaced interleavings — see
the counterexample.) -/
theorem C3_transcript_shape (s : AppState) (c : Chat) (evs : List Ev) (script : Script)
    (hscreen : s.screen = Screen.chat) (hc : s.currentChat = some c)
    (hgreet : senders c = [Sender.bot]) (hpend : s.pending = []) :
    ((∀ ev ∈ evs, isSessionEv ev = true) → (run s evs).pending = [] →
      ∃ c', (run s evs).currentChat = some c' ∧
        c'.messages.length = 1 + 2 * acceptedCount evs) ∧
    (∃ c', (run s script.events).currentChat = some c' ∧
      (run s script.events).pending = [] ∧
      c'.messages.length = 1 + 2 * script.accepted ∧
      alternatesFromBot (senders c') = true) := by
  have hlen : c.messages.length = 1 := by
    have hl := congrArg List.length hgreet
    simpa [senders] using hl
  constructor
  · intro hevs hfired
    obtain ⟨c', h1, h2, h3⟩ := session_run_count evs s c hscreen hc hevs
    refine ⟨c', h1, ?_⟩
    rw [hfired] at h3
    have hp0 : s.pending.length = 0 := by rw [hpend]; rfl
    simp only [List.length_nil] at h3
    omega
  · have halt : alternatesFromBot (senders c) = true := by rw [hgreet]; rfl
    have hodd : c.messages.length % 2 = 1 := by omega
    obtain ⟨c', h1, h2, h3, h4, h5⟩ := script_run_paced script s c hscreen hc hpend halt hodd
    exact ⟨c', h1, h3, by omega, h4⟩

/-- C3, witness: one paced accepted turn in a fresh learning session yields
a three-message alternating transcript with no reply pending. -/
theorem C3_transcript_shape_witness :
    ∃ c', (run (run initState [Ev.selectOption "learning" "5" "t1"])
        (Script.turn "hi" "t2" "t3" "L3" Script.done).events).currentChat = some c' ∧
      (run (run initState [Ev.selectOption "learning" "5" "t1"])
        (Script.turn "hi" "t2" "t3" "L3" Script.done).events).pending = [] ∧
      c'.messages.length = 1 + 2 * (Script.turn "hi" "t2" "t3" "L3" Script.done).accepted ∧
      alternatesFromBot (senders c') = true :=
  (C3_transcript_shape (run initState [Ev.selectOption "learning" "5" "t1"])
    ⟨"5", "learning", "Learning", "t1",
      [⟨Sender.bot, "Hello! What would you like to learn about today?", "t1"⟩]⟩
    [] (Script.turn "hi" "t2" "t3" "L3" Script.done) rfl rfl rfl rfl).2

/-- C3, counterexample: two sends inside one latency window break the
claimed alternation — after submit "a", submit "b", and both timer
firings, every scheduled reply has fired and the transcript length is
1 + 2·2 = 5, but the senders read bot, user, user, bot, bot. -/
theorem C3_counterexample :
    (run initState [Ev.selectOption "learning" "7" "t1", Ev.submit "a" "t2",
      Ev.submit "b" "t3", Ev.timerFire "t4" "L4", Ev.timerFire "t5" "L5"]).pending = [] ∧
    ((run initState [Ev.selectOption "learning" "7" "t1", Ev.submit "a" "t2",
      Ev.submit "b" "t3", Ev.timerFire "t4" "L4", Ev.timerFire "t5" "L5"]).currentChat.map
        fun c => senders c) =
      some [Sender.bot, Sender.user, Sender.user, Sender.bot, Sender.bot] ∧
    alternatesFromBot [Sender.bot, Sender.user, Sender.user, Sender.bot, Sender.bot]
      = false := by
  decide

/-! ## Claim C9 -/

/-- The clock hygiene a run may or may not enjoy: whenever a session is
started (an option is selected, or the profile form is submitted — both end
in startNewChat), the `Date.now().toString()` reading is not an id already
persisted, and is a non-empty string (every real `Date.now().toString()`
is).  Same-millisecond collisions violate this. -/
def freshStart (s : AppState) : Ev → Prop
  | Ev.selectOption _ now _ => now ∉ historyIds s ∧ now ≠ ""
  | Ev.profileSubmit _ _ _ _ now _ => now ∉ historyIds s ∧ now ≠ ""
  | _ => True

/-- Every session start along the trace is fresh. -/
def FreshRun : AppState → List Ev → Prop
  | _, [] => True
  | s, ev :: rest => freshStart s ev ∧ FreshRun (step s ev) rest

/-- The invariant of runs with fresh session starts, on top of `Inv`:
persisted ids are never the empty string, the chat screen's id is
non-empty, a missing working chat means the cleared id, and the entry the
current id finds is message-synced with the working chat (same head). -/
structure InvF (s : AppState) extends Inv s : Prop where
  idsNe : ∀ e ∈ s.chatHistory, e.id ≠ ""
  chatIdNe : s.screen = Screen.chat → s.currentChatId ≠ ""
  curNone : s.currentChat = none → s.currentChatId = ""
  headSync : ∀ e, findEntry s s.currentChatId = some e →
    ∃ c, s.currentChat = some c ∧ e.messages.head? = c.messages.head?

theorem invF_startNewChat (s : AppState) (now nowIso : String) (h : InvF s)
    (hfresh : now ∉ historyIds s) (hne : now ≠ "") :
    InvF (startNewChat s now nowIso) := by
  refine ⟨inv_startNewChat s now nowIso h.toInv, h.idsNe, fun _ => hne,
    fun hc => Option.noConfusion hc, ?_⟩
  intro e hfind
  have hnone : findEntry (startNewChat s now nowIso)
      (startNewChat s now nowIso).currentChatId = none := by
    show s.chatHistory.find? (fun chat => chat.id == now) = none
    rw [List.find?_eq_none]
    intro x hx hbeq
    exact hfresh (beq_iff_eq.mp hbeq ▸ List.mem_map_of_mem Chat.id hx)
  rw [hnone] at hfind
  exact Option.noConfusion hfind

theorem invF_handleOptionSelect (s : AppState) (option now nowIso : String) (h : InvF s)
    (hfresh : now ∉ historyIds s) (hne : now ≠ "") :
    InvF (handleOptionSelect s option now nowIso) := by
  have hbase : InvF { s with currentChatType := option, chatTitle := chatTitleFor option s.chatTitle } :=
    ⟨⟨h.nodup, h.entries, h.chatScreen, h.curGood⟩, h.idsNe, h.chatIdNe, h.curNone, h.headSync⟩
  by_cases hcond : (option = "medical" ∨ option = "checkup") ∧ s.profile = none
  · have hgate : InvF { s with currentChatType := option, chatTitle := chatTitleFor option s.chatTitle, screen := Screen.profileEntry } :=
      ⟨⟨h.nodup, h.entries, fun hs => Screen.noConfusion hs, h.curGood⟩, h.idsNe,
        fun hs => Screen.noConfusion hs, h.curNone, h.headSync⟩
    simpa [handleOptionSelect, hcond] using hgate
  · simpa [handleOptionSelect, hcond] using invF_startNewChat _ now nowIso hbase hfresh hne

theorem invF_handleProfileSubmit (s : AppState) (name age sex description now nowIso : String)
    (h : InvF s) (hfresh : now ∉ historyIds s) (hne : now ≠ "") :
    InvF (handleProfileSubmit s name age sex description now nowIso) :=
  invF_startNewChat _ now nowIso
    ⟨⟨h.nodup, h.entries, h.chatScreen, h.curGood⟩, h.idsNe, h.chatIdNe, h.curNone, h.headSync⟩
    hfresh hne

/-- How sendMessage rewrites the history, in one equation. -/
theorem sendMessage_history (s : AppState) (c : Chat) (v t : String)
    (hc : s.currentChat = some c) (hv : jsTrim v ≠ "") :
    (sendMessage s v t).chatHistory =
      if s.chatHistory.any (fun chat => chat.id == s.currentChatId) then
        updateMessagesOfFirst s.chatHistory s.currentChatId
          (c.messages ++ [⟨Sender.user, jsTrim v, t⟩])
      else s.chatHistory ++ [{ c with messages := c.messages ++ [⟨Sender.user, jsTrim v, t⟩] }] := by
  unfold sendMessage
  rw [if_neg hv, hc]
  by_cases hmem : s.chatHistory.any (fun chat => chat.id == s.currentChatId) <;> simp [hmem]

theorem invF_sendMessage (s : AppState) (v t : String) (h : InvF s)
    (hs : s.screen = Screen.chat) : InvF (sendMessage s v t) := by
  by_cases hv : jsTrim v = ""
  · rw [sendMessage_rejected s v t hv]
    exact h
  · obtain ⟨c, hc, hcid⟩ := h.chatScreen hs
    obtain ⟨hcne, hchead⟩ := h.curGood c hc
    have hidne : s.currentChatId ≠ "" := h.chatIdNe hs
    obtain ⟨hcc, hcp, hcs, hcid2⟩ := sendMessage_accepted_parts s c v t hc hv
    have hh := sendMessage_history s c v t hc hv
    refine ⟨inv_sendMessage s v t h.toInv hs, ?_, ?_, ?_, ?_⟩
    · intro e he
      rw [hh] at he
      by_cases hmem : s.chatHistory.any (fun chat => chat.id == s.currentChatId)
      · rw [if_pos hmem] at he
        rcases mem_updateMessagesOfFirst _ _ _ _ he with hm | ⟨e0, hm, rfl⟩
        · exact h.idsNe e hm
        · exact h.idsNe e0 hm
      · rw [if_neg hmem] at he
        rcases List.mem_append.mp he with hm | hm
        · exact h.idsNe e hm
        · rw [List.mem_singleton.mp hm]
          show c.id ≠ ""
          rw [hcid]
          exact hidne
    · intro _
      rw [hcid2]
      exact hidne
    · intro hnone
      rw [hcc] at hnone
      exact Option.noConfusion hnone
    · intro e hfind
      unfold findEntry at hfind
      rw [hcid2, hh] at hfind
      by_cases hmem : s.chatHistory.any (fun chat => chat.id == s.currentChatId)
      · rw [if_pos hmem, find?_updateMessagesOfFirst_self] at hfind
        cases hfe : s.chatHistory.find? (fun chat => chat.id == s.currentChatId) with
        | none => rw [hfe] at hfind; exact Option.noConfusion hfind
        | some e0 =>
          rw [hfe] at hfind
          have he : { e0 with messages := c.messages ++ [⟨Sender.user, jsTrim v, t⟩] } = e :=
            Option.some.inj hfind
          subst he
          exact ⟨_, hcc, rfl⟩
      · rw [if_neg hmem, List.find?_append] at hfind
        have hfe : s.chatHistory.find? (fun chat => chat.id == s.currentChatId) = none := by
          rw [List.find?_eq_none]
          intro x hx hbeq
          exact absurd (List.any_eq_true.mpr ⟨x, hx, hbeq⟩) hmem
        rw [hfe] at hfind
        simp only [Option.none_or] at hfind
        have hbeq : (c.id == s.currentChatId) = true := beq_iff_eq.mpr hcid
        rw [List.find?_cons] at hfind
        simp only [hbeq, cond_true] at hfind
        have he : { c with messages := c.messages ++ [⟨Sender.user, jsTrim v, t⟩] } = e :=
          Option.some.inj hfind
        subst he
        exact ⟨_, hcc, rfl⟩

theorem invF_deliverBotReply (s : AppState) (reply : PendingReply) (tIso tLoc : String)
    (h : InvF s) : InvF (deliverBotReply s reply tIso tLoc) := by
  cases hc : s.currentChat with
  | none =>
    have heq : deliverBotReply s reply tIso tLoc = s := by
      unfold deliverBotReply
      rw [hc]
    rw [heq]
    exact h
  | some c =>
    obtain ⟨hcne, hchead⟩ := h.curGood c hc
    obtain ⟨hcc, hcp, hcs, hcid2⟩ := deliverBotReply_parts s c reply tIso tLoc hc
    have hh : (deliverBotReply s reply tIso tLoc).chatHistory =
        updateMessagesOfFirst s.chatHistory s.currentChatId
          (c.messages ++ [⟨Sender.bot, reply.botResponse, tIso⟩]) := by
      unfold deliverBotReply
      rw [hc]
    refine ⟨inv_deliverBotReply s reply tIso tLoc h.toInv, ?_, ?_, ?_, ?_⟩
    · intro e he
      rw [hh] at he
      rcases mem_updateMessagesOfFirst _ _ _ _ he with hm | ⟨e0, hm, rfl⟩
      · exact h.idsNe e hm
      · exact h.idsNe e0 hm
    · intro hscr
      rw [hcid2]
      exact h.chatIdNe (hcs.symm.trans hscr)
    · intro hnone
      rw [hcc] at hnone
      exact Option.noConfusion hnone
    · intro e hfind
      unfold findEntry at hfind
      rw [hcid2, hh, find?_updateMessagesOfFirst_self] at hfind
      cases hfe : s.chatHistory.find? (fun chat => chat.id == s.currentChatId) with
      | none => rw [hfe] at hfind; exact Option.noConfusion hfind
      | some e0 =>
        rw [hfe] at hfind
        have he : { e0 with messages := c.messages ++ [⟨Sender.bot, reply.botResponse, tIso⟩] }
            = e := Option.some.inj hfind
        subst he
        exact ⟨_, hcc, rfl⟩

/-- handleBackFromChat: the history either stays or is filtered, and the
working id is cleared, the screen is the initial one, the working chat
object survives. -/
theorem handleBackFromChat_parts (s : AppState) :
    ((handleBackFromChat s).chatHistory = s.chatHistory ∨
      (handleBackFromChat s).chatHistory =
        s.chatHistory.filter (fun chat => chat.id != s.currentChatId)) ∧
    (handleBackFromChat s).currentChatId = "" ∧
    (handleBackFromChat s).screen = Screen.initial ∧
    (handleBackFromChat s).currentChat = s.currentChat := by
  cases hc : s.currentChat with
  | none =>
    have heq : handleBackFromChat s = showInitialScreen
        { s with chatHistory := s.chatHistory.filter (fun chat => chat.id != s.currentChatId) } := by
      simp [handleBackFromChat, hc]
    rw [heq]
    exact ⟨Or.inr rfl, rfl, rfl, hc⟩
  | some c =>
    by_cases hlen : 1 < c.messages.length
    · have heq : handleBackFromChat s = showInitialScreen s := by
        simp [handleBackFromChat, hc, hlen]
      rw [heq]
      exact ⟨Or.inl rfl, rfl, rfl, hc⟩
    · have heq : handleBackFromChat s = showInitialScreen
          { s with chatHistory := s.chatHistory.filter (fun chat => chat.id != s.currentChatId) } := by
        simp [handleBackFromChat, hc, hlen]
      rw [heq]
      exact ⟨Or.inr rfl, rfl, rfl, hc⟩

theorem invF_handleBackFromChat (s : AppState) (h : InvF s) :
    InvF (handleBackFromChat s) := by
  obtain ⟨hor, hid, hscr, hcur⟩ := handleBackFromChat_parts s
  have hids : ∀ e ∈ (handleBackFromChat s).chatHistory, e.id ≠ "" := by
    rcases hor with hor | hor <;> rw [hor] <;> intro e he
    · exact h.idsNe e he
    · exact h.idsNe e (List.mem_of_mem_filter he)
  refine ⟨inv_handleBackFromChat s h.toInv, hids, ?_, fun _ => hid, ?_⟩
  · intro hchat
    rw [hscr] at hchat
    exact Screen.noConfusion hchat
  · intro e hfind
    exfalso
    have hnone : findEntry (handleBackFromChat s) (handleBackFromChat s).currentChatId
        = none := by
      show (handleBackFromChat s).chatHistory.find?
        (fun chat => chat.id == (handleBackFromChat s).currentChatId) = none
      rw [hid, List.find?_eq_none]
      intro x hx hbeq
      exact hids x hx (beq_iff_eq.mp hbeq)
    rw [hnone] at hfind
    exact Option.noConfusion hfind

theorem invF_loadChat (s : AppState) (chatId : String) (h : InvF s) :
    InvF (loadChat s chatId) := by
  cases hf : s.chatHistory.find? (fun chat => chat.id == chatId) with
  | none =>
    have heq : loadChat s chatId = s := by
      unfold loadChat
      rw [hf]
    rw [heq]
    exact h
  | some chat =>
    have hm := List.mem_of_find?_eq_some hf
    have hid : chat.id = chatId := by
      have hp := List.find?_some hf
      simpa using hp
    have heq : loadChat s chatId = { s with currentChatId := chatId, currentChatType := chat.type, currentChat := some chat, chatTitle := chat.title, screen := Screen.chat } := by
      unfold loadChat
      rw [hf]
    rw [heq]
    refine ⟨heq ▸ inv_loadChat s chatId h.toInv, h.idsNe, fun _ => hid ▸ h.idsNe chat hm, fun hnone => Option.noConfusion hnone, ?_⟩
    intro e hfind
    have hfind2 : s.chatHistory.find? (fun chat => chat.id == chatId) = some e := hfind
    rw [hf] at hfind2
    obtain rfl := Option.some.inj hfind2
    exact ⟨chat, rfl, rfl⟩

theorem invF_step (s : AppState) (ev : Ev) (h : InvF s) (hf : freshStart s ev) :
    InvF (step s ev) := by
  cases ev with
  | selectOption option now nowIso =>
    show InvF (if s.screen = Screen.initial then handleOptionSelect s option now nowIso else s)
    split
    · exact invF_handleOptionSelect s option now nowIso h hf.1 hf.2
    · exact h
  | profileSubmit name age sex description now nowIso =>
    show InvF (if s.screen = Screen.profileEntry then
      handleProfileSubmit s name age sex description now nowIso else s)
    split
    · exact invF_handleProfileSubmit s name age sex description now nowIso h hf.1 hf.2
    · exact h
  | submit v t =>
    show InvF (if s.screen = Screen.chat then sendMessage s v t else s)
    split
    · exact invF_sendMessage s v t h (by assumption)
    · exact h
  | timerFire tIso tLoc =>
    cases hp : s.pending with
    | nil =>
      rw [step_timerFire_nil s tIso tLoc hp]
      exact h
    | cons reply restp =>
      rw [step_timerFire_cons s reply restp tIso tLoc hp]
      exact invF_deliverBotReply _ reply tIso tLoc
        ⟨⟨h.nodup, h.entries, h.chatScreen, h.curGood⟩, h.idsNe, h.chatIdNe, h.curNone,
          h.headSync⟩
  | back =>
    show InvF (if s.screen = Screen.chat then handleBackFromChat s else s)
    split
    · exact invF_handleBackFromChat s h
    · exact h
  | load chatId =>
    show InvF (if s.screen = Screen.initial then loadChat s chatId else s)
    split
    · exact invF_loadChat s chatId h
    · exact h
  | deleteHistory =>
    show InvF (if s.screen = Screen.initial then deleteAllHistory s else s)
    split
    · exact ⟨⟨List.nodup_nil, fun e he => absurd he (List.not_mem_nil e), h.chatScreen,
        h.curGood⟩, fun e he => absurd he (List.not_mem_nil e), h.chatIdNe, h.curNone,
        fun e hfind => Option.noConfusion hfind⟩
    · exact h

theorem invF_initState : InvF initState :=
  ⟨inv_initState, fun e he => absurd he (List.not_mem_nil e),
   fun hs => Screen.noConfusion hs, fun _ => rfl, fun _ hfind => Option.noConfusion hfind⟩

theorem invF_run_of (evs : List Ev) (s : AppState) (h : InvF s) (hfr : FreshRun s evs) :
    InvF (run s evs) := by
  induction evs generalizing s with
  | nil => exact h
  | cons ev rest ih => exact ih (step s ev) (invF_step s ev h hfr.1) hfr.2

theorem freshRun_append_one (s : AppState) (evs : List Ev) (ev : Ev)
    (h : FreshRun s (evs ++ [ev])) : FreshRun s evs ∧ freshStart (run s evs) ev := by
  induction evs generalizing s with
  | nil => exact ⟨trivial, h.1⟩
  | cons e rest ih =>
    obtain ⟨h1, h2⟩ := h
    obtain ⟨h3, h4⟩ := ih (step s e) h2
    exact ⟨⟨h1, h3⟩, h4⟩

theorem findEntry_congr (s2 s : AppState) (i : String)
    (hh : s2.chatHistory = s.chatHistory) : findEntry s2 i = findEntry s i := by
  unfold findEntry
  rw [hh]

theorem handleOptionSelect_history (s : AppState) (option now nowIso : String) :
    (handleOptionSelect s option now nowIso).chatHistory = s.chatHistory := by
  by_cases hcond : (option = "medical" ∨ option = "checkup") ∧ s.profile = none <;>
    simp [handleOptionSelect, hcond, startNewChat]

theorem loadChat_history (s : AppState) (chatId : String) :
    (loadChat s chatId).chatHistory = s.chatHistory := by
  cases hf : s.chatHistory.find? (fun chat => chat.id == chatId) <;> simp [loadChat, hf]

/-- One fresh step never changes the first message of an entry that exists
before and after it. -/
theorem findEntry_head_stable (s : AppState) (ev : Ev) (h : InvF s)
    (hf : freshStart s ev) (i : String) (e e' : Chat)
    (he : findEntry s i = some e) (he' : findEntry (step s ev) i = some e') :
    e'.messages.head? = e.messages.head? := by
  have hsame : ∀ s2 : AppState, s2.chatHistory = s.chatHistory →
      findEntry s2 i = some e' → e'.messages.head? = e.messages.head? := by
    intro s2 hh2 hf2
    rw [findEntry_congr s2 s i hh2, he] at hf2
    cases Option.some.inj hf2
    rfl
  cases ev with
  | selectOption option now nowIso =>
    refine hsame (step s (Ev.selectOption option now nowIso)) ?_ he'
    show (if s.screen = Screen.initial then handleOptionSelect s option now nowIso
      else s).chatHistory = s.chatHistory
    split
    · exact handleOptionSelect_history s option now nowIso
    · rfl
  | profileSubmit name age sex description now nowIso =>
    refine hsame (step s (Ev.profileSubmit name age sex description now nowIso)) ?_ he'
    show (if s.screen = Screen.profileEntry then
      handleProfileSubmit s name age sex description now nowIso else s).chatHistory
      = s.chatHistory
    split
    · rfl
    · rfl
  | load chatId =>
    refine hsame (step s (Ev.load chatId)) ?_ he'
    show (if s.screen = Screen.initial then loadChat s chatId else s).chatHistory
      = s.chatHistory
    split
    · exact loadChat_history s chatId
    · rfl
  | submit v t =>
    by_cases hs : s.screen = Screen.chat
    · rw [step_submit_chat s v t hs] at he'
      by_cases hv : jsTrim v = ""
      · rw [sendMessage_rejected s v t hv] at he'
        exact hsame s rfl he'
      · obtain ⟨c, hc, hcid⟩ := h.chatScreen hs
        obtain ⟨hcne, hchead⟩ := h.curGood c hc
        have hh := sendMessage_history s c v t hc hv
        unfold findEntry at he he'
        rw [hh] at he'
        by_cases hmem : s.chatHistory.any (fun chat => chat.id == s.currentChatId)
        · rw [if_pos hmem] at he'
          by_cases hi : i = s.currentChatId
          · subst hi
            rw [find?_updateMessagesOfFirst_self, he] at he'
            have he2 : { e with messages := c.messages ++ [⟨Sender.user, jsTrim v, t⟩] }
                = e' := Option.some.inj he'
            obtain ⟨c0, hc0, hhead0⟩ := h.headSync e he
            rw [Option.some.inj (hc0.symm.trans hc)] at hhead0
            rw [← he2]
            show (c.messages ++ [(⟨Sender.user, jsTrim v, t⟩ : Message)]).head? = e.messages.head?
            rw [head?_append_singleton _ _ hcne]
            exact hhead0.symm
          · rw [find?_updateMessagesOfFirst_other _ _ _ _ hi, he] at he'
            cases Option.some.inj he'
            rfl
        · rw [if_neg hmem, List.find?_append, he] at he'
          cases Option.some.inj he'
          rfl
    · have heq : step s (Ev.submit v t) = s := by
        show (if s.screen = Screen.chat then sendMessage s v t else s) = s
        rw [if_neg hs]
      rw [heq] at he'
      exact hsame s rfl he'
  | timerFire tIso tLoc =>
    cases hp : s.pending with
    | nil =>
      rw [step_timerFire_nil s tIso tLoc hp] at he'
      exact hsame s rfl he'
    | cons reply restp =>
      rw [step_timerFire_cons s reply restp tIso tLoc hp] at he'
      cases hc : s.currentChat with
      | none =>
        have heq : deliverBotReply { s with pending := restp } reply tIso tLoc
            = { s with pending := restp } := by
          unfold deliverBotReply
          rw [show ({ s with pending := restp } : AppState).currentChat = none from hc]
        rw [heq] at he'
        exact hsame _ rfl he'
      | some c =>
        obtain ⟨hcne, hchead⟩ := h.curGood c hc
        have hh : (deliverBotReply { s with pending := restp } reply tIso tLoc).chatHistory =
            updateMessagesOfFirst s.chatHistory s.currentChatId
              (c.messages ++ [⟨Sender.bot, reply.botResponse, tIso⟩]) := by
          unfold deliverBotReply
          rw [show ({ s with pending := restp } : AppState).currentChat = some c from hc]
        unfold findEntry at he he'
        rw [hh] at he'
        by_cases hi : i = s.currentChatId
        · subst hi
          rw [find?_updateMessagesOfFirst_self, he] at he'
          have he2 : { e with messages := c.messages ++ [⟨Sender.bot, reply.botResponse, tIso⟩] }
              = e' := Option.some.inj he'
          obtain ⟨c0, hc0, hhead0⟩ := h.headSync e he
          rw [Option.some.inj (hc0.symm.trans hc)] at hhead0
          rw [← he2]
          show (c.messages ++ [(⟨Sender.bot, reply.botResponse, tIso⟩ : Message)]).head? = e.messages.head?
          rw [head?_append_singleton _ _ hcne]
          exact hhead0.symm
        · rw [find?_updateMessagesOfFirst_other _ _ _ _ hi, he] at he'
          cases Option.some.inj he'
          rfl
  | back =>
    by_cases hs : s.screen = Screen.chat
    · have heq : step s Ev.back = handleBackFromChat s := by
        show (if s.screen = Screen.chat then handleBackFromChat s else s) = _
        rw [if_pos hs]
      rw [heq] at he'
      obtain ⟨hor, hid, hscr, hcur⟩ := handleBackFromChat_parts s
      rcases hor with hor | hor
      · exact hsame _ hor he'
      · unfold findEntry at he he'
        rw [hor] at he'
        by_cases hi : i = s.currentChatId
        · exfalso
          subst hi
          have hpe := List.find?_some he'
          have hme := List.mem_of_find?_eq_some he'
          have hne := (List.mem_filter.mp hme).2
          exact absurd (beq_iff_eq.mp hpe) (bne_iff_ne.mp hne)
        · rw [find?_filter_of_imp] at he'
          · rw [he] at he'
            cases Option.some.inj he'
            rfl
          · intro x hpx
            exact bne_iff_ne.mpr fun hxe => hi ((beq_iff_eq.mp hpx).symm.trans hxe)
    · have heq : step s Ev.back = s := by
        show (if s.screen = Screen.chat then handleBackFromChat s else s) = s
        rw [if_neg hs]
      rw [heq] at he'
      exact hsame s rfl he'
  | deleteHistory =>
    by_cases hs : s.screen = Screen.initial
    · exfalso
      have heq : step s Ev.deleteHistory = deleteAllHistory s := by
        show (if s.screen = Screen.initial then deleteAllHistory s else s) = _
        rw [if_pos hs]
      rw [heq] at he'
      exact Option.noConfusion he'
    · have heq : step s Ev.deleteHistory = s := by
        show (if s.screen = Screen.initial then deleteAllHistory s else s) = s
        rw [if_neg hs]
      rw [heq] at he'
      exact hsame s rfl he'

/-- C9 (amended): every persisted entry — in every reachable state, so in
particular at the moment it is first inserted — has at least two messages
and a bot message (the session greeting) at position 0; and in runs whose
session starts all use fresh ids (distinct clock readings, the `FreshRun`
hygiene), no step changes the first message of an entry that persists
across it.  (Under an id collision a later session overwrites the colliding
entry's messages wholesale, replacing the greeting — see the
counterexample.) -/
theorem C9_greeting_first_and_stable (evs : List Ev) (ev : Ev) (i : String) (e e' : Chat)
    (hfr : FreshRun initState (evs ++ [ev]))
    (he : findEntry (run initState evs) i = some e)
    (he' : findEntry (run initState (evs ++ [ev])) i = some e') :
    (∀ evs2 : List Ev, ∀ x ∈ (run initState evs2).chatHistory,
      2 ≤ x.messages.length ∧ headSender x = some Sender.bot) ∧
    e'.messages.head? = e.messages.head? := by
  obtain ⟨hfr1, hfs⟩ := freshRun_append_one initState evs ev hfr
  have hinv := invF_run_of evs initState invF_initState hfr1
  have hrw : run initState (evs ++ [ev]) = step (run initState evs) ev := by
    rw [run_append]
    rfl
  rw [hrw] at he'
  exact ⟨fun evs2 x hx => (inv_run evs2).entries x hx,
    findEntry_head_stable (run initState evs) ev hinv hfs i e e' he he'⟩

/-- C9, witness: entries always carry a two-message-or-more transcript with
the bot greeting first, and a further accepted message in the fresh
learning session does not change entry "5"'s first message. -/
theorem C9_greeting_first_and_stable_witness :
    (∀ evs2 : List Ev, ∀ x ∈ (run initState evs2).chatHistory,
      2 ≤ x.messages.length ∧ headSender x = some Sender.bot) ∧
    (⟨"5", "learning", "Learning", "t1",
      [⟨Sender.bot, "Hello! What would you like to learn about today?", "t1"⟩,
       ⟨Sender.user, "hi", "t2"⟩,
       ⟨Sender.user, "more", "t3"⟩]⟩ : Chat).messages.head? =
    (⟨"5", "learning", "Learning", "t1",
      [⟨Sender.bot, "Hello! What would you like to learn about today?", "t1"⟩,
       ⟨Sender.user, "hi", "t2"⟩]⟩ : Chat).messages.head? :=
  C9_greeting_first_and_stable
    [Ev.selectOption "learning" "5" "t1", Ev.submit "hi" "t2"] (Ev.submit "more" "t3") "5"
    ⟨"5", "learning", "Learning", "t1",
      [⟨Sender.bot, "Hello! What would you like to learn about today?", "t1"⟩,
       ⟨Sender.user, "hi", "t2"⟩]⟩
    ⟨"5", "learning", "Learning", "t1",
      [⟨Sender.bot, "Hello! What would you like to learn about today?", "t1"⟩,
       ⟨Sender.user, "hi", "t2"⟩,
       ⟨Sender.user, "more", "t3"⟩]⟩
    ⟨⟨by decide, by decide⟩, trivial, trivial, trivial⟩ (by decide) (by decide)

/-- C9, counterexample: an id collision replaces a persisted greeting — a
learning chat promoted under id "5" starts with the learning greeting; a
later medical session started at the same clock reading "5" (after the
profile gate and form) has its first accepted message overwrite entry "5",
whose position-0 message becomes the medical greeting instead. -/
theorem C9_counterexample :
    ((findEntry (run initState [Ev.selectOption "learning" "5" "t1", Ev.submit "hi" "t2",
        Ev.back]) "5").bind
      fun e => e.messages.head?.map Message.content) =
      some "Hello! What would you like to learn about today?" ∧
    ((findEntry (run initState [Ev.selectOption "learning" "5" "t1", Ev.submit "hi" "t2",
        Ev.back, Ev.selectOption "medical" "9" "t3",
        Ev.profileSubmit "Ann" "30" "f" "" "5" "t4", Ev.submit "yo" "t5"]) "5").bind
      fun e => e.messages.head?.map Message.content) =
      some "Hello Ann, I\x27m here to provide general medical advice. Please describe your symptoms or concerns." := by
  decide

/-! ## Claim C10 -/

/-- C10: updateProfileWithChatInfo never touches `name`, `age` or `sex` —
on any profile the result keeps all three (only `description` and
`updatedAt` can differ), and without a profile it changes nothing. -/
theorem C10_profile_update_frame (p : Profile) (userMessage nowLocale nowIso : String) :
    (updateProfileWithChatInfo (some p) userMessage nowLocale nowIso).map Profile.name =
      some p.name ∧
    (updateProfileWithChatInfo (some p) userMessage nowLocale nowIso).map Profile.age =
      some p.age ∧
    (updateProfileWithChatInfo (some p) userMessage nowLocale nowIso).map Profile.sex =
      some p.sex ∧
    updateProfileWithChatInfo none userMessage nowLocale nowIso = none := by
  refine ⟨?_, ?_, ?_, rfl⟩ <;> simp [updateProfileWithChatInfo]

end HealthApp
